import Mathlib

/-!
Verification of the Transaction Ingestion & Staging Pipeline of the
expensetracker-nextjs repository: the incremental Gmail fetcher with its
watermark protocol (`syncEmailsAction`), the idempotent staging store, the
AI-assisted extraction worker (`processStagingAction`), the SMS webhook
(`POST /api/sync/sms`), and the client-side auto-sync debounce
(`GmailSyncModal`).  All definitions are shallow embeddings of the
TypeScript source; external effects (Gmail API, Firestore, the Gemini
model, base64 decoding, JSON.parse) are modelled as explicit parameters
or per-call-site failure flags.
-/

namespace ExpenseTracker

/-! ## Generic string machinery (JS string operations over `List Char`) -/

/-- Decides whether `pat` is a prefix of `l` (character lists). -/
def listPre (pat l : List Char) : Bool :=
  match pat, l with
  | [], _ => true
  | _ :: _, [] => false
  | a :: as, b :: bs => a == b && listPre as bs

/-- Decides whether `needle` occurs as a contiguous sublist of `hay`. -/
def subSearch (needle : List Char) : List Char → Bool
  | [] => needle.isEmpty
  | h :: t => listPre needle (h :: t) || subSearch needle t

/-- JS `hay.includes(needle)` / regex literal-alternative membership. -/
def strContains (hay needle : String) : Bool :=
  subSearch needle.data hay.data

/-- Fuel-driven worker for `replaceAll`; the fuel is an upper bound on
the input length, so it never runs out when called through `replaceAll`. -/
def replaceAllAux (pat sub : List Char) : Nat → List Char → List Char
  | _, [] => []
  | 0, l => l
  | fuel + 1, h :: t =>
    if listPre pat (h :: t) then
      sub ++ replaceAllAux pat sub fuel (List.drop (pat.length - 1) t)
    else
      h :: replaceAllAux pat sub fuel t

/-- JS `String.prototype.replace` with a global literal pattern:
replaces every non-overlapping occurrence of `pat` (scanning left to
right) by `sub`. -/
def replaceAll (pat sub l : List Char) : List Char :=
  replaceAllAux pat sub l.length l

/-- JS whitespace test used by `String.prototype.trim` (ASCII cases). -/
def isWs (c : Char) : Bool :=
  c == ' ' || c == '\n' || c == '\t' || c == '\r'

/-- JS `String.prototype.trim`: drop leading and trailing whitespace. -/
def trimChars (l : List Char) : List Char :=
  ((l.dropWhile isWs).reverse.dropWhile isWs).reverse

/-- JS `s.substring(0, n)`: the first `n` code units of `s`. -/
def jsSubstring (s : String) (n : Nat) : String :=
  String.mk (s.data.take n)

/-- JS falsiness of an optional string field: `undefined`/`null` and the
empty string are falsy, every other string is truthy. -/
def jsFalsy : Option String → Bool
  | none => true
  | some s => s == ""

/-! ## Multipart body walker (`extractBody` in `gmailSync`)

The source walks the Gmail `payload.parts` tree, concatenating the
base64-decoded bodies of `text/plain` and `text/html` leaves with labeled
separators and recursing into nested `parts`.  `decode` stands for
`Buffer.from(data, "base64").toString("utf-8")`. -/

/-- One node of the MIME multipart tree: `mimeType`, `body?.data`
(base64 text, absent or empty is falsy) and the optional `parts` array
(note: in JS an empty array is truthy, so `some []` recurses and
contributes nothing, while `none` skips). -/
inductive Part where
  | mk (mimeType : String) (bodyData : Option String) (subparts : Option (List Part))

/-- Truthiness of `part.body?.data`. -/
def dataTruthy : Option String → Bool
  | none => false
  | some s => s != ""

mutual

/-- `extractBody(parts)` from the source: fold the contributions of the
parts in order. -/
def extractBody (decode : String → String) : List Part → String
  | [] => ""
  | p :: rest => extractPart decode p ++ extractBody decode rest

/-- Contribution of a single part: labeled decoded text for
`text/plain` / `text/html` leaves with data, recursion into `parts`
otherwise. -/
def extractPart (decode : String → String) : Part → String
  | .mk mimeType bodyData subparts =>
    if mimeType == "text/plain" && dataTruthy bodyData then
      "\n--- Text Content ---\n" ++ decode (bodyData.getD "")
    else if mimeType == "text/html" && dataTruthy bodyData then
      "\n--- HTML Content ---\n" ++ decode (bodyData.getD "")
    else
      match subparts with
      | some children => extractBody decode children
      | none => ""

end

/-! ## Incremental Fetcher (`syncEmailsAction` in `gmailSync`)

External effects are explicit: the Gmail API is a `Provider`; Firestore
is the `DB` record threaded through; each awaited external call has a
`CallSite`, and `failAt s = true` means the call at site `s` throws —
the surrounding try/catch then yields the typed failure result.  A call
that fails does not mutate the store (each Firestore write is atomic per
document, and staging writes are buffered in a batch committed at
`batchCommit`). -/

/-- One entry of `gmail.users.messages.list` (`id` may be absent). -/
structure MsgRef where
  id : Option String
deriving DecidableEq

/-- The `payload` of a full message (`parts` may be absent; an empty
array is distinct from absent but contributes the same extracted text). -/
structure Payload where
  parts : Option (List Part)

/-- A full message as fetched with `format: "full"`:
`payload` may be absent, `internalDate` is `parseInt(... || "0")`. -/
structure FullMsg where
  payload : Option Payload
  internalDate : Nat

/-- The remote mailbox: `page q n` is `messages.list` with query `q` and
`maxResults n` (newest first), `full mid` is `messages.get(mid)`. -/
structure Provider where
  page : String → Nat → List MsgRef
  full : String → FullMsg

/-- The per-account sync cursor doc `mailstaging/{email}_sync_cursor`. -/
structure Cursor where
  last_date : Option Nat
  last_entry : Option String
  updatedAt : Option Nat
deriving DecidableEq

/-- A staging doc written by the fetcher (`mailstaging/{msg.id}`). -/
structure StagingDoc where
  emailId : String
  receivedAt : Nat
  status : String
  emailContent : String
  userEmail : String
  createdAt : Nat
deriving DecidableEq

/-- The Firestore state relevant to one account: the cursor doc, the
staging collection as an association list keyed by doc id, and the
`user_secrets` fields read/written by the sync (`gmail_refresh_token`,
`lastSyncedAt`; the unread `email`/`updatedAt` fields are omitted). -/
structure DB where
  cursor : Option Cursor
  staging : List (String × StagingDoc)
  refreshToken : Option String
  lastSyncedAt : Option Nat
deriving DecidableEq

/-- The typed result `syncEmailsAction` returns (never throws). -/
structure SyncResult where
  success : Bool
  message : String
  count : Option Nat
deriving DecidableEq

/-- The awaited external calls of `syncEmailsAction`, in source order. -/
inductive CallSite where
  | secretRead
  | tokenRefresh
  | cursorRead
  | msgList
  | msgGet
  | batchCommit
  | cursorWrite
  | syncedWrite
deriving DecidableEq

/-- JS `Array.prototype.findIndex` (as an `Option Nat`). -/
def findIdxAux (p : MsgRef → Bool) : List MsgRef → Option Nat
  | [] => none
  | m :: rest => if p m then some 0 else (findIdxAux p rest).map (· + 1)

/-- The watermark slice: given the stored `last_entry` (if truthy),
search the page for it; found at index `k` keeps indices `[0, k)`;
not found (or no watermark) keeps the whole page. -/
def computeNewMessages (lastEntry : Option String) (messages : List MsgRef) :
    List MsgRef :=
  match lastEntry with
  | none => messages
  | some le =>
    if le = "" then messages
    else
      match findIdxAux (fun m => m.id == some le) messages with
      | some k => messages.take k
      | none => messages

/-- Firestore `doc(k).set(v)`: upsert keyed by the doc id. -/
def setDoc (k : String) (v : StagingDoc) :
    List (String × StagingDoc) → List (String × StagingDoc)
  | [] => [(k, v)]
  | (k1, v1) :: rest =>
    if k1 = k then (k, v) :: rest else (k1, v1) :: setDoc k v rest

/-- Committing the buffered batch: apply the buffered `set`s in order. -/
def commitBatch : List (String × StagingDoc) → List (String × StagingDoc) →
    List (String × StagingDoc)
  | [], staging => staging
  | op :: rest, staging => commitBatch rest (setDoc op.1 op.2 staging)

/-- `emailContent || "(No Content Extracted)"` from the staging write. -/
def stageContent (content : String) : String :=
  if content = "" then "(No Content Extracted)" else content

/-- The staging doc the fetcher buffers for one message. -/
def mkStagingDoc (mid : String) (internalDate : Nat) (content userEmail : String)
    (now : Nat) : StagingDoc :=
  { emailId := mid, receivedAt := internalDate, status := "pending",
    emailContent := stageContent content, userEmail := userEmail,
    createdAt := now }

/-- The per-message fetch loop: skips messages with a falsy id, records
the first (newest) id as the watermark candidate `lid`, fetches the full
message (a throwing `messages.get` aborts the whole action: `none`),
skips messages without a payload, tracks the maximal `internalDate` in
`ldate`, and buffers one staging `set` per remaining message. -/
def fetchLoop (decode : String → String) (prov : Provider) (userEmail : String)
    (now : Nat) (failAt : CallSite → Bool) :
    List MsgRef → String → Nat → List (String × StagingDoc) →
    Option (List (String × StagingDoc) × String × Nat)
  | [], lid, ldate, acc => some (acc, lid, ldate)
  | m :: rest, lid, ldate, acc =>
    match m.id with
    | none => fetchLoop decode prov userEmail now failAt rest lid ldate acc
    | some mid =>
      if mid = "" then fetchLoop decode prov userEmail now failAt rest lid ldate acc
      else
        let lid1 := if lid = "" then mid else lid
        if failAt .msgGet then none
        else
          let fm := prov.full mid
          match fm.payload with
          | none => fetchLoop decode prov userEmail now failAt rest lid1 ldate acc
          | some pl =>
            let ldate1 := if fm.internalDate > ldate then fm.internalDate else ldate
            let content := extractBody decode (pl.parts.getD [])
            fetchLoop decode prov userEmail now failAt rest lid1 ldate1
              (acc ++ [(mid, mkStagingDoc mid fm.internalDate content userEmail now)])

/-- The Gmail query: the fixed label filter, plus `after:<seconds>` when
the cursor doc carries a `last_date` (milliseconds, floored to seconds). -/
def queryFor (db : DB) : String :=
  "label:transactions" ++
    match db.cursor with
    | some c =>
      match c.last_date with
      | some d => " after:" ++ toString (d / 1000)
      | none => ""
    | none => ""

/-- The result the outer catch produces for a thrown Firestore/Gmail
call (`error.message || "Failed to sync emails"`). -/
def syncFailure : SyncResult :=
  { success := false, message := "Failed to sync emails", count := none }

/-- The final `lastSyncedAt` bookkeeping write followed by the success
return; shared by the zero-result, up-to-date and full paths. -/
def finishSync (failAt : CallSite → Bool) (now : Nat) (cnt : Nat) (msg : String)
    (db : DB) : SyncResult × DB :=
  if failAt .syncedWrite then (syncFailure, db)
  else ({ success := true, message := msg, count := some cnt },
    { db with lastSyncedAt := some now })

/-- The `set(updates, merge: true)` on the cursor doc: fields present in
`updates` overwrite, absent ones keep the stored value (none when the
doc did not exist). -/
def mergeCursor (old : Option Cursor) (lid : String) (ldate tNow : Nat) : Cursor :=
  let base := old.getD { last_date := none, last_entry := none, updatedAt := none }
  { last_date := if 0 < ldate then some ldate else base.last_date,
    last_entry := if lid ≠ "" then some lid else base.last_entry,
    updatedAt := some tNow }

/-- Step 4 of the action: merge-write the cursor when at least one of
`last_date` (`ldate > 0`) / `last_entry` (`lid` nonempty) was collected,
then finish. -/
def writeCursor (failAt : CallSite → Bool) (now : Nat) (lid : String)
    (ldate : Nat) (cnt : Nat) (db : DB) : SyncResult × DB :=
  let msg := "Synced " ++ toString cnt ++ " emails"
  if 0 < ldate ∨ lid ≠ "" then
    if failAt .cursorWrite then (syncFailure, db)
    else
      finishSync failAt now cnt msg
        { db with cursor := some (mergeCursor db.cursor lid ldate now) }
  else
    finishSync failAt now cnt msg db

/-- The body of the action from the cursor read on (both auth paths join
here). -/
def syncCore (decode : String → String) (userEmail : String) (prov : Provider)
    (failAt : CallSite → Bool) (db : DB) (now : Nat) : SyncResult × DB :=
  if failAt .cursorRead then (syncFailure, db)
  else
    let maxResults := if db.cursor.isSome then 20 else 2
    if failAt .msgList then (syncFailure, db)
    else
      let messages := prov.page (queryFor db) maxResults
      if messages.length = 0 then
        finishSync failAt now 0 "No new emails found" db
      else
        let lastEntry := db.cursor.bind Cursor.last_entry
        let newMessages := computeNewMessages lastEntry messages
        if newMessages.length = 0 then
          finishSync failAt now 0 "No new emails (up to date)" db
        else
          match fetchLoop decode prov userEmail now failAt newMessages "" 0 [] with
          | none => (syncFailure, db)
          | some (ops, lid, ldate) =>
            if failAt .batchCommit then (syncFailure, db)
            else
              writeCursor failAt now lid ldate newMessages.length
                { db with staging := commitBatch ops db.staging }

/-- `syncEmailsAction(accessToken, userEmail)`: the missing-email guard,
then either the direct access-token path or the refresh-token path
(missing credentials and a failed refresh are returned as typed
failures), then the shared core. -/
def syncEmails (decode : String → String) (accessToken : Option String)
    (userEmail : String) (prov : Provider) (failAt : CallSite → Bool)
    (db : DB) (now : Nat) : SyncResult × DB :=
  if userEmail = "" then
    ({ success := false, message := "Missing email", count := none }, db)
  else
    match accessToken with
    | some _ => syncCore decode userEmail prov failAt db now
    | none =>
      if failAt .secretRead then (syncFailure, db)
      else
        match db.refreshToken with
        | none =>
          ({ success := false,
             message := "No Auto-Sync credentials found. Please enable it.",
             count := none }, db)
        | some _ =>
          if failAt .tokenRefresh then
            ({ success := false,
               message := "Auto-Sync session expired. Please re-enable.",
               count := none }, db)
          else syncCore decode userEmail prov failAt db now

/-- The internal date the provider reports for a page entry (0 for an
id-less entry, mirroring `parseInt(... || "0")`). -/
def msgDate (prov : Provider) (m : MsgRef) : Nat :=
  match m.id with
  | some mid => (prov.full mid).internalDate
  | none => 0

/-- A well-formed page entry: it has a nonempty id, its full message has
a payload, and its internal date is positive. -/
def wfMsg (prov : Provider) (m : MsgRef) : Prop :=
  ∃ mid, m.id = some mid ∧ mid ≠ "" ∧
    (prov.full mid).payload.isSome = true ∧ 0 < (prov.full mid).internalDate

/-! ## Extraction Worker (`processStagingAction` in `gmailSync`)

The worker selects up to 10 `status = "pending"` staging docs for the
user, and for each builds a prompt from the doc's `emailContent`,
calls the Gemini model, strips markdown fences from the response, and
advances the doc's status.  The model call and `JSON.parse` are external:
the call outcome is an input (`GenResult`) and JSON parsability is an
oracle `jsonOk : String → Bool` (true iff `JSON.parse` does not throw). -/

/-- Strips markdown code fences and trims, exactly as the source:
`response.text().replace(/```json/g, '').replace(/```/g, '').trim()`. -/
def stripFences (s : String) : String :=
  String.mk (trimChars (replaceAll ("```".data) []
    (replaceAll ("```json".data) [] s.data)))

/-- Prompt the worker sends to the model, verbatim from the source
template literal (braces written as escapes); the only dynamic datum is
`content.substring(0, 15000)`. -/
def buildPrompt (content : String) : String :=
  "\n        You are an expense parser. Extract transaction details from this email.\n        \n        Email Content:\n        \"" ++
  jsSubstring content 15000 ++
  "\" \n\n        Return JSON String ONLY (no markdown):\n        \x7b\n          \"amount\": number,\n          \"expenseName\": \"Short Title\",\n          \"date\": \"YYYY-MM-DD\",\n          \"category\": \"Suggested Category\",\n          \"notes\": \"Sender/Vendor info\",\n          \"refundRequired\": boolean // True if this is a work expense, reimbursement, or personal loan\n        \x7d\n        \n        Rules:\n        - If multiple transactions, pick the main one.\n        - If NO transaction found, return null (the word null).\n        - Detect if the email implies this is a \"reimbursable\" expense (e.g. \"Work trip\", \"Project expenses\") or implies a personal loan.\n      "

/-- A staging doc as the worker sees it. -/
structure PendingDoc where
  id : String
  status : String
  emailContent : Option String
  parsedData : Option String
deriving DecidableEq

/-- Outcome of the external `model.generateContent` call for one doc:
either it resolves with a response text, or it throws. -/
inductive GenResult where
  | ok (text : String)
  | err
deriving DecidableEq

/-- Per-item body of the worker loop.  Returns the updated doc and the
flag whether `processedCount` was incremented.  Mirrors the source:
items with missing/short content are skipped (left untouched, no model
call); a thrown model call or a failed `JSON.parse` is caught per item
and degrades the item to `status = "error"`; the literal response
`"null"` (after fence stripping) also becomes `"error"`; any other
JSON-parsable text is stored raw in `parsedData` with
`status = "review"`. -/
def processDoc (jsonOk : String → Bool) (d : PendingDoc) (g : GenResult) :
    PendingDoc × Bool :=
  match d.emailContent with
  | none => (d, false)
  | some content =>
    if content == "" || content.length < 10 then
      (d, false)
    else
      match g with
      | .err => ({ d with status := "error" }, false)
      | .ok raw =>
        let text := stripFences raw
        if text == "null" then
          ({ d with status := "error" }, false)
        else if jsonOk text then
          ({ d with parsedData := some text, status := "review" }, true)
        else
          ({ d with status := "error" }, false)

/-- The worker loop over the selected batch (each doc paired with its
model-call outcome), accumulating the updated docs and the processed
count, in source order. -/
def processLoop (jsonOk : String → Bool) :
    List (PendingDoc × GenResult) → List PendingDoc × Nat
  | [] => ([], 0)
  | (d, g) :: rest =>
    let step := processDoc jsonOk d g
    let tail := processLoop jsonOk rest
    (step.1 :: tail.1, (if step.2 then 1 else 0) + tail.2)

/-! ## SMS webhook (`POST` in `src/app/api/sync/sms/route.ts`) -/

/-- Response of the webhook (HTTP status plus JSON body fields). -/
structure SmsResp where
  status : Nat
  success : Bool
  message : String
deriving DecidableEq

/-- Staging doc written by the SMS webhook (`mailstaging.add({...})`). -/
structure SmsDoc where
  type : String
  emailId : String
  userEmail : String
  sender : String
  emailContent : String
  receivedAt : Nat
  status : String
  createdAt : Nat
deriving DecidableEq

/-- The keyword filter `/debited|spent/i.test(body)`: case-insensitive
substring match of either alternative. -/
def isTransaction (body : String) : Bool :=
  subSearch ("debited".data) (body.data.map Char.toLower) ||
  subSearch ("spent".data) (body.data.map Char.toLower)

/-- The webhook handler on an already-JSON-parsed request body
`{sender, body, timestamp}`.  `freshId` stands for the generated
`sms_${Date.now()}_${random}` id and `now` for `Date.now()` /
`Timestamp.now()`.  Returns the response and the list of staging docs
written (empty or a singleton).  The surrounding try/catch that maps
JSON-parse or Firestore failures to a 500 response is not exercised by
any claim and is omitted. -/
def smsPOST (sender body : Option String) (timestamp : Option Nat)
    (freshId : String) (now : Nat) : SmsResp × List SmsDoc :=
  if jsFalsy sender || jsFalsy body then
    ({ status := 400, success := false, message := "Missing fields" }, [])
  else
    let b := body.getD ""
    if !isTransaction b then
      ({ status := 200, success := true, message := "SMS Skipped" }, [])
    else
      ({ status := 200, success := true, message := "SMS Staged" },
        [{ type := "sms", emailId := freshId, userEmail := "unknown_mobile",
           sender := sender.getD "", emailContent := b,
           receivedAt := match timestamp with
             | some t => if t == 0 then now else t
             | none => now,
           status := "pending", createdAt := now }])

/-! ## Auto-sync debounce (`GmailSyncModal` open effect)

On modal open with auto-sync enabled, the client reads the stored
last-attempt timestamp (0 when absent), fires the fetch only when more
than 15 minutes have passed, and writes the new timestamp back
immediately — before the asynchronous fetch resolves — so the stored
value never depends on the fetch outcome. -/

/-- The fixed cooldown: `15 * 60 * 1000` milliseconds. -/
def AUTO_SYNC_COOLDOWN_MS : Nat := 15 * 60 * 1000

/-- One trigger evaluation: given the stored timestamp and the current
time, decide whether to fire and the timestamp stored afterwards. -/
def autoSyncStep (stored now : Nat) : Bool × Nat :=
  if now - stored > AUTO_SYNC_COOLDOWN_MS then (true, now) else (false, stored)

/-- A sequence of trigger invocations at the given times, starting from
an empty store (`parseInt(localStorage.getItem(...) || '0') = 0`);
returns the final stored timestamp and the number of fetch calls. -/
def runAutoSync (times : List Nat) : Nat × Nat :=
  times.foldl
    (fun p t =>
      let s := autoSyncStep p.1 t
      (s.2, p.2 + if s.1 then 1 else 0))
    (0, 0)

/-! ## Concrete instances used by witnesses and counterexamples -/

/-- A one-message provider page (newest first); the full message has a
payload without parts and internal date 2000 ms. -/
def exProv : Provider :=
  { page := fun _ _ => [{ id := some "b" }],
    full := fun _ => { payload := some { parts := none }, internalDate := 2000 } }

/-- A provider variant whose page respects the requested size bound. -/
def exProvBounded : Provider :=
  { page := fun _ n => if n = 0 then [] else [{ id := some "b" }],
    full := fun _ => { payload := some { parts := none }, internalDate := 2000 } }

/-- A warm store: cursor at (1000 ms, message "a"), empty staging. -/
def exDb : DB :=
  { cursor := some { last_date := some 1000, last_entry := some "a", updatedAt := none },
    staging := [], refreshToken := none, lastSyncedAt := none }

/-- Failure schedule that throws only the final `lastSyncedAt` write. -/
def exFailSynced : CallSite → Bool := fun s => s = CallSite.syncedWrite

/-- Failure schedule that throws only the `messages.list` call. -/
def exFailList : CallSite → Bool := fun s => s = CallSite.msgList

/-- The parsed-payload sample from the spec's test vector. -/
def jsonSample : String :=
  "\x7b\"amount\":500,\"expenseName\":\"Lunch\",\"date\":\"2024-05-01\",\"category\":\"Food\",\"notes\":\"\",\"refundRequired\":false\x7d"

/-- A JSON.parse success oracle accepting exactly the sample payload. -/
def exJsonOk : String → Bool := fun s => s = jsonSample

/-- A pending staging doc with long-enough content. -/
def exPending : PendingDoc :=
  { id := "m1", status := "pending",
    emailContent := some "Rs.500 spent at Lunch Cafe", parsedData := none }

/-- The raw email content of the worker batch used against C7. -/
def exContent : String := "Rs.500 spent at ACME Store on 2024-05-01"

/-! ## Supporting lemmas: watermark search -/

/-- `findIndex` returns the first index satisfying the predicate. -/
theorem findIdxAux_first (p : MsgRef → Bool) (l : List MsgRef) :
    ∀ (k : Nat) (hk : k < l.length),
      p (l.get ⟨k, hk⟩) = true →
      (∀ j (hj : j < k), p (l.get ⟨j, Nat.lt_trans hj hk⟩) = false) →
      findIdxAux p l = some k := by
  induction l with
  | nil =>
    intro k hk _ _
    simp at hk
  | cons m rest ih =>
    intro k hk hp hlt
    cases k with
    | zero =>
      simp only [List.get] at hp
      simp [findIdxAux, hp]
    | succ k1 =>
      have hm : p m = false := by
        have h0 := hlt 0 (Nat.succ_pos k1)
        simpa using h0
      have hk1 : k1 < rest.length := by
        simpa using hk
      have hp1 : p (rest.get ⟨k1, hk1⟩) = true := by
        simpa using hp
      have hlt1 : ∀ j (hj : j < k1),
          p (rest.get ⟨j, Nat.lt_trans hj hk1⟩) = false := by
        intro j hj
        have hx := hlt (j + 1) (Nat.succ_lt_succ hj)
        simpa using hx
      simp [findIdxAux, hm, ih k1 hk1 hp1 hlt1]

/-- `findIndex` misses when no element satisfies the predicate. -/
theorem findIdxAux_eq_none (p : MsgRef → Bool) :
    ∀ l : List MsgRef, (∀ m ∈ l, p m = false) → findIdxAux p l = none := by
  intro l
  induction l with
  | nil => intro _; rfl
  | cons m rest ih =>
    intro h
    have hm := h m (List.mem_cons_self m rest)
    simp [findIdxAux, hm, ih fun x hx => h x (List.mem_cons_of_mem m hx)]

/-- The watermark slice of an empty page is empty. -/
theorem computeNewMessages_nil (le : Option String) :
    computeNewMessages le [] = [] := by
  unfold computeNewMessages
  cases le with
  | none => rfl
  | some s =>
    by_cases h : s = "" <;> simp [h, findIdxAux]

/-- The watermark slice never grows the page. -/
theorem computeNewMessages_length_le (le : Option String) (msgs : List MsgRef) :
    (computeNewMessages le msgs).length ≤ msgs.length := by
  unfold computeNewMessages
  cases le with
  | none => exact le_refl _
  | some s =>
    by_cases h : s = ""
    · simp [h]
    · simp only [h, if_neg]
      cases findIdxAux (fun m => m.id == some s) msgs with
      | none => simp
      | some k =>
        simpa [List.length_take] using Nat.min_le_right k msgs.length

/-- Every message the watermark slice keeps comes from the page. -/
theorem computeNewMessages_sub (le : Option String) (msgs : List MsgRef) :
    ∀ m ∈ computeNewMessages le msgs, m ∈ msgs := by
  unfold computeNewMessages
  cases le with
  | none => intro m hm; exact hm
  | some s =>
    by_cases h : s = ""
    · simp [h]
    · simp only [h, if_neg]
      cases findIdxAux (fun m => m.id == some s) msgs with
      | none => intro m hm; simpa using hm
      | some k => intro m hm; exact List.take_subset k msgs (by simpa using hm)

/-! ## Supporting lemmas: staging-store upsert -/

/-- Keys after an upsert: the upsert key or an existing key. -/
theorem setDoc_keys_mem (k : String) (v : StagingDoc) :
    ∀ (l : List (String × StagingDoc)) (x : String),
      x ∈ (setDoc k v l).map Prod.fst → x = k ∨ x ∈ l.map Prod.fst := by
  intro l
  induction l with
  | nil =>
    intro x hx
    simp [setDoc] at hx
    exact Or.inl hx
  | cons p rest ih =>
    obtain ⟨k1, v1⟩ := p
    intro x hx
    by_cases hk : k1 = k
    · simp [setDoc, hk] at hx
      rcases hx with rfl | hx
      · exact Or.inl rfl
      · exact Or.inr (by simp [hx])
    · simp only [setDoc, hk, if_false, List.map_cons, List.mem_cons] at hx
      rcases hx with rfl | hx
      · exact Or.inr (by simp)
      · rcases ih x hx with h1 | h1
        · exact Or.inl h1
        · exact Or.inr (by simp [h1])

/-- Upserting preserves distinctness of the staging keys. -/
theorem setDoc_keys_nodup (k : String) (v : StagingDoc) :
    ∀ l : List (String × StagingDoc),
      (l.map Prod.fst).Nodup → ((setDoc k v l).map Prod.fst).Nodup := by
  intro l
  induction l with
  | nil => intro _; simp [setDoc]
  | cons p rest ih =>
    obtain ⟨k1, v1⟩ := p
    intro h
    simp only [List.map_cons, List.nodup_cons] at h
    by_cases hk : k1 = k
    · subst hk
      simp only [setDoc, eq_self_iff_true, if_true, List.map_cons,
        List.nodup_cons]
      exact h
    · simp only [setDoc, hk, if_false, List.map_cons, List.nodup_cons]
      refine ⟨?_, ih h.2⟩
      intro hmem
      rcases setDoc_keys_mem k v rest k1 hmem with h1 | h1
      · exact hk h1
      · exact h.1 h1

/-- Committing a batch of upserts preserves key distinctness. -/
theorem commitBatch_keys_nodup :
    ∀ (ops st : List (String × StagingDoc)),
      (st.map Prod.fst).Nodup → ((commitBatch ops st).map Prod.fst).Nodup := by
  intro ops
  induction ops with
  | nil => intro st h; exact h
  | cons op rest ih =>
    intro st h
    exact ih _ (setDoc_keys_nodup op.1 op.2 st h)

/-- No entry of a key-distinct list carries an absent key. -/
theorem filter_key_nil (k1 : String) :
    ∀ rest : List (String × StagingDoc), k1 ∉ rest.map Prod.fst →
      rest.filter (fun p => p.1 = k1) = [] := by
  intro rest
  induction rest with
  | nil => intro _; rfl
  | cons q t ih =>
    intro h
    obtain ⟨kq, vq⟩ := q
    simp only [List.map_cons, List.mem_cons] at h
    push_neg at h
    have hne : ¬ (kq = k1) := fun he => h.1 he.symm
    simp [List.filter_cons, hne, ih h.2]

/-- A key-distinct staging list holds at most one doc per key. -/
theorem nodup_filter_key (id1 : String) :
    ∀ l : List (String × StagingDoc), (l.map Prod.fst).Nodup →
      (l.filter (fun p => p.1 = id1)).length ≤ 1 := by
  intro l
  induction l with
  | nil => intro _; simp
  | cons p rest ih =>
    obtain ⟨k1, v1⟩ := p
    intro h
    simp only [List.map_cons, List.nodup_cons] at h
    by_cases hk : k1 = id1
    · subst hk
      have hnil : rest.filter (fun p => p.1 = k1) = [] :=
        filter_key_nil k1 rest h.1
      simp [List.filter_cons, hnil]
    · simp [List.filter_cons, hk]
      exact ih h.2

/-! ## Supporting lemmas: the per-message fetch loop -/

/-- With a healthy `messages.get`, the fetch loop always completes. -/
theorem fetchLoop_isSome (decode : String → String) (prov : Provider)
    (userEmail : String) (tNow : Nat) (failAt : CallSite → Bool)
    (hmg : failAt CallSite.msgGet = false) :
    ∀ (msgs : List MsgRef) (lid : String) (ldate : Nat)
      (acc : List (String × StagingDoc)),
      (fetchLoop decode prov userEmail tNow failAt msgs lid ldate acc).isSome = true := by
  intro msgs
  induction msgs with
  | nil => intro lid ldate acc; rfl
  | cons m rest ih =>
    intro lid ldate acc
    cases hid : m.id with
    | none => simpa [fetchLoop, hid] using ih lid ldate acc
    | some mid =>
      by_cases hm : mid = ""
      · simpa [fetchLoop, hid, hm] using ih lid ldate acc
      · simp only [fetchLoop, hid, hm, hmg, Bool.false_eq_true, if_false]
        cases hp : (prov.full mid).payload with
        | none => exact ih _ ldate acc
        | some pl => exact ih _ _ _

/-- Where the loop's maximal internal date can come from: either it is
the initial accumulator value, or it is the internal date of one of the
processed page entries. -/
theorem fetchLoop_ldate_src (decode : String → String) (prov : Provider)
    (userEmail : String) (tNow : Nat) (failAt : CallSite → Bool) :
    ∀ (msgs : List MsgRef) (lid : String) (ldate : Nat)
      (acc ops : List (String × StagingDoc)) (lid1 : String) (ldate1 : Nat),
      fetchLoop decode prov userEmail tNow failAt msgs lid ldate acc =
        some (ops, lid1, ldate1) →
      ldate1 = ldate ∨ ∃ mid, (∃ m ∈ msgs, m.id = some mid) ∧
        ldate1 = (prov.full mid).internalDate := by
  intro msgs
  induction msgs with
  | nil =>
    intro lid ldate acc ops lid1 ldate1 h
    simp only [fetchLoop, Option.some.injEq, Prod.mk.injEq] at h
    exact Or.inl h.2.2.symm
  | cons m rest ih =>
    intro lid ldate acc ops lid1 ldate1 h
    have lift : (∃ mid, (∃ x ∈ rest, x.id = some mid) ∧
        ldate1 = (prov.full mid).internalDate) →
        ∃ mid, (∃ x ∈ m :: rest, x.id = some mid) ∧
          ldate1 = (prov.full mid).internalDate := by
      rintro ⟨mid, ⟨x, hx, hxid⟩, he⟩
      exact ⟨mid, ⟨x, List.mem_cons_of_mem m hx, hxid⟩, he⟩
    cases hid : m.id with
    | none =>
      simp only [fetchLoop, hid] at h
      rcases ih _ _ _ _ _ _ h with h1 | h1
      · exact Or.inl h1
      · exact Or.inr (lift h1)
    | some mid =>
      simp only [fetchLoop, hid] at h
      by_cases hm : mid = ""
      · rw [if_pos hm] at h
        rcases ih _ _ _ _ _ _ h with h1 | h1
        · exact Or.inl h1
        · exact Or.inr (lift h1)
      · rw [if_neg hm] at h
        cases hfa : failAt CallSite.msgGet with
        | true =>
          rw [hfa] at h
          simp at h
        | false =>
          rw [hfa] at h
          simp only [Bool.false_eq_true, if_false] at h
          cases hp : (prov.full mid).payload with
          | none =>
            simp only [hp] at h
            rcases ih _ _ _ _ _ _ h with h1 | h1
            · exact Or.inl h1
            · exact Or.inr (lift h1)
          | some pl =>
            simp only [hp] at h
            rcases ih _ _ _ _ _ _ h with h1 | h1
            · by_cases hgt : (prov.full mid).internalDate > ldate
              · rw [if_pos hgt] at h1
                exact Or.inr ⟨mid, ⟨m, List.mem_cons_self m rest, hid⟩, h1⟩
              · rw [if_neg hgt] at h1
                exact Or.inl h1
            · exact Or.inr (lift h1)

/-- Once the watermark candidate is set and every remaining entry is no
newer than the accumulated date, the loop keeps both unchanged and only
appends staging writes. -/
theorem fetchLoop_keep (decode : String → String) (prov : Provider)
    (userEmail : String) (tNow : Nat) (failAt : CallSite → Bool)
    (hmg : failAt CallSite.msgGet = false) :
    ∀ (msgs : List MsgRef) (lid : String) (ldate : Nat)
      (acc : List (String × StagingDoc)),
      lid ≠ "" →
      (∀ m ∈ msgs, wfMsg prov m) →
      (∀ m ∈ msgs, msgDate prov m ≤ ldate) →
      ∃ ops, fetchLoop decode prov userEmail tNow failAt msgs lid ldate acc =
        some (acc ++ ops, lid, ldate) := by
  intro msgs
  induction msgs with
  | nil =>
    intro lid ldate acc _ _ _
    exact ⟨[], by simp [fetchLoop]⟩
  | cons m rest ih =>
    intro lid ldate acc hl hwf hle
    obtain ⟨mid, hid, hmne, hpl, _⟩ := hwf m (List.mem_cons_self m rest)
    obtain ⟨pl, hp⟩ := Option.isSome_iff_exists.mp hpl
    have hdle : (prov.full mid).internalDate ≤ ldate := by
      have hx := hle m (List.mem_cons_self m rest)
      simpa [msgDate, hid] using hx
    have hnotgt : ¬ ((prov.full mid).internalDate > ldate) := by omega
    obtain ⟨ops, hops⟩ := ih lid ldate
      (acc ++ [(mid, mkStagingDoc mid (prov.full mid).internalDate
        (extractBody decode (pl.parts.getD [])) userEmail tNow)])
      hl
      (fun x hx => hwf x (List.mem_cons_of_mem m hx))
      (fun x hx => hle x (List.mem_cons_of_mem m hx))
    refine ⟨(mid, mkStagingDoc mid (prov.full mid).internalDate
      (extractBody decode (pl.parts.getD [])) userEmail tNow) :: ops, ?_⟩
    simp only [fetchLoop, hid, if_neg hmne, if_neg hl, hmg,
      Bool.false_eq_true, if_false, hp, if_neg hnotgt]
    rw [hops]
    simp

/-! ## Supporting lemmas: outcome shapes of the sync action -/

/-- The final bookkeeping write touches neither cursor nor staging. -/
theorem finishSync_db (failAt : CallSite → Bool) (tNow cnt : Nat) (msg : String)
    (db : DB) :
    (finishSync failAt tNow cnt msg db).2.cursor = db.cursor ∧
    (finishSync failAt tNow cnt msg db).2.staging = db.staging := by
  unfold finishSync
  split <;> exact ⟨rfl, rfl⟩

/-- A failed finish means the `lastSyncedAt` write threw, and the store
is untouched. -/
theorem finishSync_fail (failAt : CallSite → Bool) (tNow cnt : Nat) (msg : String)
    (db : DB) (h : (finishSync failAt tNow cnt msg db).1.success = false) :
    failAt CallSite.syncedWrite = true ∧
    (finishSync failAt tNow cnt msg db).2 = db := by
  unfold finishSync at h ⊢
  by_cases hf : failAt CallSite.syncedWrite = true
  · rw [if_pos hf]
    exact ⟨hf, rfl⟩
  · rw [if_neg hf] at h
    simp at h

/-- A failed finish carries a nonempty message. -/
theorem finishSync_msg (failAt : CallSite → Bool) (tNow cnt : Nat) (msg : String)
    (db : DB) (h : (finishSync failAt tNow cnt msg db).1.success = false) :
    (finishSync failAt tNow cnt msg db).1.message ≠ "" := by
  unfold finishSync at h ⊢
  by_cases hf : failAt CallSite.syncedWrite = true
  · rw [if_pos hf]
    simp [syncFailure]
  · rw [if_neg hf] at h
    simp at h

/-- A successful finish reports the count it was given. -/
theorem finishSync_count (failAt : CallSite → Bool) (tNow cnt : Nat) (msg : String)
    (db : DB) (c : Nat)
    (h : (finishSync failAt tNow cnt msg db).1.count = some c) : c = cnt := by
  unfold finishSync at h
  by_cases hf : failAt CallSite.syncedWrite = true
  · rw [if_pos hf] at h
    simp [syncFailure] at h
  · rw [if_neg hf] at h
    simp at h
    omega

/-- The cursor write leaves the staging collection untouched. -/
theorem writeCursor_staging (failAt : CallSite → Bool) (tNow : Nat) (lid : String)
    (ldate cnt : Nat) (db : DB) :
    (writeCursor failAt tNow lid ldate cnt db).2.staging = db.staging := by
  unfold writeCursor
  by_cases hc : 0 < ldate ∨ lid ≠ ""
  · rw [if_pos hc]
    by_cases hf : failAt CallSite.cursorWrite = true
    · rw [if_pos hf]
    · rw [if_neg hf]
      exact (finishSync_db _ _ _ _ _).2
  · rw [if_neg hc]
    exact (finishSync_db _ _ _ _ _).2

/-- A failed cursor-write step carries a nonempty message, and either
left the cursor unchanged or the failure was the final bookkeeping
write (after the cursor was already advanced). -/
theorem writeCursor_fail (failAt : CallSite → Bool) (tNow : Nat) (lid : String)
    (ldate cnt : Nat) (db : DB)
    (h : (writeCursor failAt tNow lid ldate cnt db).1.success = false) :
    (writeCursor failAt tNow lid ldate cnt db).1.message ≠ "" ∧
    ((writeCursor failAt tNow lid ldate cnt db).2.cursor = db.cursor ∨
      failAt CallSite.syncedWrite = true) := by
  unfold writeCursor at h ⊢
  by_cases hc : 0 < ldate ∨ lid ≠ ""
  · rw [if_pos hc] at h ⊢
    by_cases hf : failAt CallSite.cursorWrite = true
    · rw [if_pos hf]
      exact ⟨by simp [syncFailure], Or.inl rfl⟩
    · rw [if_neg hf] at h ⊢
      exact ⟨finishSync_msg _ _ _ _ _ h, Or.inr (finishSync_fail _ _ _ _ _ h).1⟩
  · rw [if_neg hc] at h ⊢
    refine ⟨finishSync_msg _ _ _ _ _ h, Or.inl ?_⟩
    exact (finishSync_db _ _ _ _ _).1

/-- Whatever happens in the cursor-write step, its count is either
absent or the given one. -/
theorem writeCursor_count (failAt : CallSite → Bool) (tNow : Nat) (lid : String)
    (ldate cnt : Nat) (db : DB) (c : Nat)
    (h : (writeCursor failAt tNow lid ldate cnt db).1.count = some c) :
    c = cnt := by
  unfold writeCursor at h
  by_cases hc : 0 < ldate ∨ lid ≠ ""
  · rw [if_pos hc] at h
    by_cases hf : failAt CallSite.cursorWrite = true
    · rw [if_pos hf] at h
      simp [syncFailure] at h
    · rw [if_neg hf] at h
      exact finishSync_count _ _ _ _ _ _ h
  · rw [if_neg hc] at h
    exact finishSync_count _ _ _ _ _ _ h

/-- The cursor after the cursor-write step: unchanged, or the merged
record built from the collected watermark data. -/
theorem writeCursor_cursor (failAt : CallSite → Bool) (tNow : Nat) (lid : String)
    (ldate cnt : Nat) (db : DB) :
    (writeCursor failAt tNow lid ldate cnt db).2.cursor = db.cursor ∨
    ((0 < ldate ∨ lid ≠ "") ∧
      (writeCursor failAt tNow lid ldate cnt db).2.cursor =
        some (mergeCursor db.cursor lid ldate tNow)) := by
  unfold writeCursor
  by_cases hc : 0 < ldate ∨ lid ≠ ""
  · rw [if_pos hc]
    by_cases hf : failAt CallSite.cursorWrite = true
    · rw [if_pos hf]
      exact Or.inl rfl
    · rw [if_neg hf]
      refine Or.inr ⟨hc, ?_⟩
      exact (finishSync_db _ _ _ _ _).1
  · rw [if_neg hc]
    exact Or.inl (finishSync_db _ _ _ _ _).1

/-- A successful cursor-write step with both watermark data present
stores exactly the newest id and timestamp. -/
theorem writeCursor_success_cursor (failAt : CallSite → Bool) (tNow : Nat)
    (lid : String) (ldate cnt : Nat) (db : DB)
    (hld : 0 < ldate) (hlid : lid ≠ "")
    (hs : (writeCursor failAt tNow lid ldate cnt db).1.success = true) :
    (writeCursor failAt tNow lid ldate cnt db).2.cursor =
      some { last_date := some ldate, last_entry := some lid,
             updatedAt := some tNow } := by
  unfold writeCursor at hs ⊢
  rw [if_pos (Or.inl hld)] at hs ⊢
  by_cases hf : failAt CallSite.cursorWrite = true
  · rw [if_pos hf] at hs
    simp [syncFailure] at hs
  · rw [if_neg hf] at hs ⊢
    rw [(finishSync_db _ _ _ _ _).1]
    simp [mergeCursor, hld, hlid]

/-- The three outcome shapes of the core: an aborted run returning the
store untouched, an early finish with count 0 on an empty page or an
up-to-date watermark, or the full staging-then-cursor path. -/
theorem syncCore_cases (decode : String → String) (userEmail : String)
    (prov : Provider) (failAt : CallSite → Bool) (db : DB) (tNow : Nat) :
    syncCore decode userEmail prov failAt db tNow = (syncFailure, db) ∨
    (∃ msg,
      (prov.page (queryFor db) (if db.cursor.isSome then 20 else 2) = [] ∨
       computeNewMessages (db.cursor.bind Cursor.last_entry)
         (prov.page (queryFor db) (if db.cursor.isSome then 20 else 2)) = []) ∧
      syncCore decode userEmail prov failAt db tNow =
        finishSync failAt tNow 0 msg db) ∨
    (∃ ops lid ldate,
      fetchLoop decode prov userEmail tNow failAt
        (computeNewMessages (db.cursor.bind Cursor.last_entry)
          (prov.page (queryFor db) (if db.cursor.isSome then 20 else 2)))
        "" 0 [] = some (ops, lid, ldate) ∧
      syncCore decode userEmail prov failAt db tNow =
        writeCursor failAt tNow lid ldate
          (computeNewMessages (db.cursor.bind Cursor.last_entry)
            (prov.page (queryFor db) (if db.cursor.isSome then 20 else 2))).length
          { db with staging := commitBatch ops db.staging }) := by
  unfold syncCore
  by_cases h1 : failAt CallSite.cursorRead = true
  · rw [if_pos h1]
    exact Or.inl rfl
  · rw [if_neg h1]
    by_cases h2 : failAt CallSite.msgList = true
    · rw [if_pos h2]
      exact Or.inl rfl
    · rw [if_neg h2]
      by_cases h3 : (prov.page (queryFor db) (if db.cursor.isSome then 20 else 2)).length = 0
      · rw [if_pos h3]
        exact Or.inr (Or.inl ⟨"No new emails found",
          Or.inl (List.length_eq_zero.mp h3), rfl⟩)
      · rw [if_neg h3]
        by_cases h4 : (computeNewMessages (db.cursor.bind Cursor.last_entry)
            (prov.page (queryFor db) (if db.cursor.isSome then 20 else 2))).length = 0
        · rw [if_pos h4]
          exact Or.inr (Or.inl ⟨"No new emails (up to date)",
            Or.inr (List.length_eq_zero.mp h4), rfl⟩)
        · rw [if_neg h4]
          cases hloop : fetchLoop decode prov userEmail tNow failAt
              (computeNewMessages (db.cursor.bind Cursor.last_entry)
                (prov.page (queryFor db) (if db.cursor.isSome then 20 else 2)))
              "" 0 [] with
          | none => exact Or.inl rfl
          | some r =>
            obtain ⟨ops, lid, ldate⟩ := r
            dsimp only
            by_cases h5 : failAt CallSite.batchCommit = true
            · rw [if_pos h5]
              exact Or.inl rfl
            · rw [if_neg h5]
              exact Or.inr (Or.inr ⟨ops, lid, ldate, rfl, rfl⟩)

/-- Either the wrapper fails before the core with an untouched store and
a nonempty message, or it runs the core. -/
theorem syncEmails_cases (decode : String → String) (atok : Option String)
    (userEmail : String) (prov : Provider) (failAt : CallSite → Bool)
    (db : DB) (tNow : Nat) :
    (∃ m, syncEmails decode atok userEmail prov failAt db tNow =
        ({ success := false, message := m, count := none }, db) ∧ m ≠ "") ∨
    syncEmails decode atok userEmail prov failAt db tNow =
      syncCore decode userEmail prov failAt db tNow := by
  unfold syncEmails
  by_cases h0 : userEmail = ""
  · rw [if_pos h0]
    exact Or.inl ⟨"Missing email", rfl, by simp⟩
  · rw [if_neg h0]
    cases atok with
    | some tok => exact Or.inr rfl
    | none =>
      by_cases h1 : failAt CallSite.secretRead = true
      · rw [if_pos h1]
        exact Or.inl ⟨"Failed to sync emails", rfl, by simp⟩
      · rw [if_neg h1]
        cases db.refreshToken with
        | none =>
          exact Or.inl ⟨"No Auto-Sync credentials found. Please enable it.",
            rfl, by simp⟩
        | some tok =>
          by_cases h2 : failAt CallSite.tokenRefresh = true
          · rw [if_pos h2]
            exact Or.inl ⟨"Auto-Sync session expired. Please re-enable.",
              rfl, by simp⟩
          · rw [if_neg h2]
            exact Or.inr rfl

/-- The bookkeeping write succeeds under an all-healthy schedule. -/
theorem finishSync_allOk (tNow cnt : Nat) (msg : String) (db : DB) :
    (finishSync (fun _ => false) tNow cnt msg db).1.success = true := by
  unfold finishSync
  simp

/-- The cursor-write step succeeds under an all-healthy schedule. -/
theorem writeCursor_allOk (tNow : Nat) (lid : String) (ldate cnt : Nat) (db : DB) :
    (writeCursor (fun _ => false) tNow lid ldate cnt db).1.success = true := by
  unfold writeCursor
  by_cases hc : 0 < ldate ∨ lid ≠ ""
  · rw [if_pos hc]
    rw [if_neg (by simp : ¬ ((fun _ : CallSite => false) CallSite.cursorWrite = true))]
    exact finishSync_allOk _ _ _ _
  · rw [if_neg hc]
    exact finishSync_allOk _ _ _ _

/-- The core succeeds under an all-healthy schedule (no external call
throws): no-new-data conditions are success results, not errors. -/
theorem syncCore_allOk (decode : String → String) (userEmail : String)
    (prov : Provider) (db : DB) (tNow : Nat) :
    (syncCore decode userEmail prov (fun _ => false) db tNow).1.success = true := by
  unfold syncCore
  rw [if_neg (by simp : ¬ ((fun _ : CallSite => false) CallSite.cursorRead = true))]
  rw [if_neg (by simp : ¬ ((fun _ : CallSite => false) CallSite.msgList = true))]
  by_cases h3 : (prov.page (queryFor db) (if db.cursor.isSome then 20 else 2)).length = 0
  · rw [if_pos h3]
    exact finishSync_allOk _ _ _ _
  · rw [if_neg h3]
    by_cases h4 : (computeNewMessages (db.cursor.bind Cursor.last_entry)
        (prov.page (queryFor db) (if db.cursor.isSome then 20 else 2))).length = 0
    · rw [if_pos h4]
      exact finishSync_allOk _ _ _ _
    · rw [if_neg h4]
      have hsome := fetchLoop_isSome decode prov userEmail tNow (fun _ => false) rfl
        (computeNewMessages (db.cursor.bind Cursor.last_entry)
          (prov.page (queryFor db) (if db.cursor.isSome then 20 else 2))) "" 0 []
      obtain ⟨r, hr⟩ := Option.isSome_iff_exists.mp hsome
      obtain ⟨ops, lid, ldate⟩ := r
      simp only [hr]
      rw [if_neg (by simp : ¬ ((fun _ : CallSite => false) CallSite.batchCommit = true))]
      exact writeCursor_allOk _ _ _ _ _

/-- A loop run over a page whose head carries a nonempty id must have a
healthy `messages.get` to return at all. -/
theorem fetchLoop_head_get_ok (decode : String → String) (prov : Provider)
    (userEmail : String) (tNow : Nat) (failAt : CallSite → Bool)
    (m0 : MsgRef) (rest : List MsgRef) (mid0 : String)
    (h0 : m0.id = some mid0) (hne : mid0 ≠ "") (lid : String) (ldate : Nat)
    (acc : List (String × StagingDoc))
    (r : List (String × StagingDoc) × String × Nat)
    (h : fetchLoop decode prov userEmail tNow failAt (m0 :: rest) lid ldate acc = some r) :
    failAt CallSite.msgGet = false := by
  by_contra hq
  have hq1 : failAt CallSite.msgGet = true := by
    cases hfa : failAt CallSite.msgGet with
    | true => rfl
    | false => exact absurd hfa hq
  simp [fetchLoop, h0, hne, hq1] at h

/-- Dividing cannot invert a strict order: strict order of the floored
epoch seconds implies strict order of the epoch milliseconds. -/
theorem lt_of_seconds_lt (d t : Nat) (h : d / 1000 < t / 1000) : d < t := by
  by_contra hle
  push_neg at hle
  exact absurd (Nat.div_le_div_right hle) (Nat.not_le.mpr h)

/-! ## Claim C1: watermark slice and gap tolerance -/

/-- Claim C1: when a previous watermark id is stored and it occurs first
at index k of the provider's newest-first page, exactly the entries at
indices [0, k) are selected as new (k = 0 selects nothing); when the
watermark id occurs nowhere in the page, the whole page is selected as
new; and this gap case is not an error: with healthy transport the run
returns a success result. -/
theorem C1_watermark_slice :
    (∀ (le : String) (msgs : List MsgRef) (k : Nat) (hk : k < msgs.length),
        le ≠ "" →
        (msgs.get ⟨k, hk⟩).id = some le →
        (∀ j (hj : j < k), (msgs.get ⟨j, Nat.lt_trans hj hk⟩).id ≠ some le) →
        computeNewMessages (some le) msgs = msgs.take k) ∧
    (∀ (le : String) (msgs : List MsgRef), le ≠ "" →
        (∀ m ∈ msgs, m.id ≠ some le) →
        computeNewMessages (some le) msgs = msgs) ∧
    (∀ (decode : String → String) (tok userEmail : String) (prov : Provider)
        (db : DB) (tNow : Nat), userEmail ≠ "" →
        (∀ m ∈ prov.page (queryFor db) (if db.cursor.isSome then 20 else 2),
          m.id ≠ db.cursor.bind Cursor.last_entry) →
        (syncEmails decode (some tok) userEmail prov (fun _ => false) db tNow).1.success
          = true) := by
  refine ⟨?_, ?_, ?_⟩
  · intro le msgs k hk hle hpk hlt
    unfold computeNewMessages
    dsimp only
    rw [if_neg hle]
    have hfi : findIdxAux (fun m => m.id == some le) msgs = some k := by
      refine findIdxAux_first (fun m => m.id == some le) msgs k hk ?_ ?_
      · simp only [beq_iff_eq]
        exact hpk
      · intro j hj
        simp only [beq_eq_false_iff_ne]
        exact hlt j hj
    rw [hfi]
  · intro le msgs hle hnone
    unfold computeNewMessages
    dsimp only
    rw [if_neg hle]
    have hfi : findIdxAux (fun m => m.id == some le) msgs = none := by
      apply findIdxAux_eq_none
      intro m hm
      simp [hnone m hm]
    rw [hfi]
  · intro decode tok userEmail prov db tNow huser hgap
    unfold syncEmails
    rw [if_neg huser]
    exact syncCore_allOk decode userEmail prov db tNow

/-- Witness for C1: the watermark found at index 0 selects nothing, and
a watermark missing from the page keeps the whole page. -/
theorem C1_watermark_slice_witness :
    computeNewMessages (some "a") [{ id := some "a" }] =
      List.take 0 [({ id := some "a" } : MsgRef)] ∧
    computeNewMessages (some "z") [{ id := some "a" }] = [{ id := some "a" }] := by
  constructor
  · exact C1_watermark_slice.1 "a" [{ id := some "a" }] 0 (by decide) (by decide)
      rfl (fun j hj => absurd hj (Nat.not_lt_zero j))
  · exact C1_watermark_slice.2.1 "z" [{ id := some "a" }] (by decide) (by decide)

/-! ## Claim C3: at most one staging item per message id -/

/-- Claim C3: a fetch run upserts staging docs keyed by the source
message id, so if the staging collection holds at most one doc per id
before the run (distinct keys), it does so after the run as well, no
matter which calls fail and regardless of overlapping windows or
gap-tolerant re-fetches. -/
theorem C3_staging_dedup (decode : String → String) (atok : Option String)
    (userEmail : String) (prov : Provider) (failAt : CallSite → Bool)
    (db : DB) (tNow : Nat)
    (h : (db.staging.map Prod.fst).Nodup) :
    (((syncEmails decode atok userEmail prov failAt db tNow).2.staging.map
        Prod.fst).Nodup) ∧
    ∀ id1 : String,
      ((syncEmails decode atok userEmail prov failAt db tNow).2.staging.filter
        (fun p => p.1 = id1)).length ≤ 1 := by
  have hshape :
      (syncEmails decode atok userEmail prov failAt db tNow).2.staging = db.staging ∨
      ∃ ops, (syncEmails decode atok userEmail prov failAt db tNow).2.staging =
        commitBatch ops db.staging := by
    rcases syncEmails_cases decode atok userEmail prov failAt db tNow with
      ⟨m, hm, _⟩ | hcore
    · rw [hm]
      exact Or.inl rfl
    · rw [hcore]
      rcases syncCore_cases decode userEmail prov failAt db tNow with
        h1 | ⟨msg, _, h1⟩ | ⟨ops, lid, ldate, _, h1⟩
      · rw [h1]
        exact Or.inl rfl
      · rw [h1]
        exact Or.inl (finishSync_db _ _ _ _ _).2
      · rw [h1]
        refine Or.inr ⟨ops, ?_⟩
        rw [writeCursor_staging]
  have hnd :
      ((syncEmails decode atok userEmail prov failAt db tNow).2.staging.map
        Prod.fst).Nodup := by
    rcases hshape with h1 | ⟨ops, h1⟩
    · rw [h1]
      exact h
    · rw [h1]
      exact commitBatch_keys_nodup ops db.staging h
  exact ⟨hnd, fun id1 => nodup_filter_key id1 _ hnd⟩

/-- Witness for C3 on a concrete warm run: after syncing one message
into an empty store, the staging keys are distinct and the id "b" occurs
at most once. -/
theorem C3_staging_dedup_witness :
    (((syncEmails (fun s => s) (some "t") "u@x" exProv (fun _ => false) exDb
        5).2.staging.map Prod.fst).Nodup) ∧
    ((syncEmails (fun s => s) (some "t") "u@x" exProv (fun _ => false) exDb
        5).2.staging.filter (fun p => p.1 = "b")).length ≤ 1 := by
  have T := C3_staging_dedup (fun s => s) (some "t") "u@x" exProv
    (fun _ => false) exDb 5 (by simp [exDb])
  exact ⟨T.1, T.2 "b"⟩

/-- Running the loop on a well-formed newest-first page: the watermark
candidate is the head's id and the maximal date is the head's internal
date. -/
theorem fetchLoop_head (decode : String → String) (prov : Provider)
    (userEmail : String) (tNow : Nat) (failAt : CallSite → Bool)
    (hmg : failAt CallSite.msgGet = false)
    (m0 : MsgRef) (rest : List MsgRef) (mid0 : String)
    (h0 : m0.id = some mid0) (hne : mid0 ≠ "")
    (hpl : (prov.full mid0).payload.isSome = true)
    (hdt : 0 < (prov.full mid0).internalDate)
    (hwf : ∀ m ∈ rest, wfMsg prov m)
    (hle : ∀ m ∈ rest, msgDate prov m ≤ (prov.full mid0).internalDate) :
    ∃ ops, fetchLoop decode prov userEmail tNow failAt (m0 :: rest) "" 0 [] =
      some (ops, mid0, (prov.full mid0).internalDate) := by
  obtain ⟨pl, hp⟩ := Option.isSome_iff_exists.mp hpl
  have hgt : (prov.full mid0).internalDate > 0 := hdt
  obtain ⟨ops, hops⟩ := fetchLoop_keep decode prov userEmail tNow failAt hmg rest
    mid0 ((prov.full mid0).internalDate)
    [(mid0, mkStagingDoc mid0 (prov.full mid0).internalDate
      (extractBody decode (pl.parts.getD [])) userEmail tNow)]
    hne hwf hle
  refine ⟨(mid0, mkStagingDoc mid0 (prov.full mid0).internalDate
    (extractBody decode (pl.parts.getD [])) userEmail tNow) :: ops, ?_⟩
  simp only [fetchLoop, h0, if_neg hne, hmg, Bool.false_eq_true, if_false, hp,
    if_pos hgt, eq_self_iff_true, if_true]
  exact hops

/-! ## Claim C4: cold/warm page limits and the advanced cursor -/

/-- Claim C4: the fetch requests at most 2 candidate messages on a cold
start (no cursor doc) and at most 20 on a warm one (so, given a provider
that honours the requested page size, any reported count obeys those
bounds); and after every successful run that selects at least one new
message from a well-formed newest-first page, the cursor doc holds the
newest processed message's id and timestamp. -/
theorem C4_page_limits_and_cursor (decode : String → String) (atok : Option String)
    (userEmail : String) (prov : Provider) (failAt : CallSite → Bool) (db : DB)
    (tNow : Nat)
    (hlen : ∀ q n, (prov.page q n).length ≤ n) :
    ((db.cursor = none → ∀ c,
        (syncEmails decode atok userEmail prov failAt db tNow).1.count = some c →
        c ≤ 2) ∧
     (db.cursor.isSome = true → ∀ c,
        (syncEmails decode atok userEmail prov failAt db tNow).1.count = some c →
        c ≤ 20)) ∧
    (∀ (m0 : MsgRef) (rest : List MsgRef) (mid0 : String),
      computeNewMessages (db.cursor.bind Cursor.last_entry)
        (prov.page (queryFor db) (if db.cursor.isSome then 20 else 2)) = m0 :: rest →
      m0.id = some mid0 →
      mid0 ≠ "" →
      (prov.full mid0).payload.isSome = true →
      0 < (prov.full mid0).internalDate →
      (∀ m ∈ rest, wfMsg prov m) →
      (∀ m ∈ rest, msgDate prov m ≤ (prov.full mid0).internalDate) →
      (syncEmails decode atok userEmail prov failAt db tNow).1.success = true →
      (syncEmails decode atok userEmail prov failAt db tNow).2.cursor =
        some { last_date := some ((prov.full mid0).internalDate),
               last_entry := some mid0, updatedAt := some tNow }) := by
  have hcnt : ∀ c,
      (syncEmails decode atok userEmail prov failAt db tNow).1.count = some c →
      c ≤ (prov.page (queryFor db) (if db.cursor.isSome then 20 else 2)).length := by
    intro c hc
    rcases syncEmails_cases decode atok userEmail prov failAt db tNow with
      ⟨m, hm, _⟩ | hcore
    · rw [hm] at hc
      simp at hc
    · rw [hcore] at hc
      rcases syncCore_cases decode userEmail prov failAt db tNow with
        h1 | ⟨msg, _, h1⟩ | ⟨ops, lid, ldate, hloop, h1⟩
      · rw [h1] at hc
        simp [syncFailure] at hc
      · rw [h1] at hc
        have h0 := finishSync_count _ _ _ _ _ _ hc
        omega
      · rw [h1] at hc
        have hceq := writeCursor_count _ _ _ _ _ _ _ hc
        rw [hceq]
        exact computeNewMessages_length_le _ _
  refine ⟨⟨?_, ?_⟩, ?_⟩
  · intro hnone c hc
    have h1 := hcnt c hc
    have h2 := hlen (queryFor db) (if db.cursor.isSome then 20 else 2)
    have h3 : (if db.cursor.isSome then 20 else 2) = 2 := by
      rw [hnone]
      rfl
    rw [h3] at h1 h2
    omega
  · intro hsome c hc
    have h1 := hcnt c hc
    have h2 := hlen (queryFor db) (if db.cursor.isSome then 20 else 2)
    have h3 : (if db.cursor.isSome then 20 else 2) = 20 := by
      rw [hsome]
      rfl
    rw [h3] at h1 h2
    omega
  · intro m0 rest mid0 hnew h0 hne hpl hdt hwf hle hs
    rcases syncEmails_cases decode atok userEmail prov failAt db tNow with
      ⟨m, hm, _⟩ | hcore
    · rw [hm] at hs
      simp at hs
    · rw [hcore] at hs ⊢
      rcases syncCore_cases decode userEmail prov failAt db tNow with
        h1 | ⟨msg, hor, h1⟩ | ⟨ops, lid, ldate, hloop, h1⟩
      · rw [h1] at hs
        simp [syncFailure] at hs
      · rcases hor with hpage | hnm
        · rw [hpage, computeNewMessages_nil] at hnew
          simp at hnew
        · rw [hnm] at hnew
          simp at hnew
      · rw [hnew] at hloop
        have hmg := fetchLoop_head_get_ok decode prov userEmail tNow failAt
          m0 rest mid0 h0 hne _ _ _ _ hloop
        obtain ⟨ops2, hloop2⟩ := fetchLoop_head decode prov userEmail tNow failAt
          hmg m0 rest mid0 h0 hne hpl hdt hwf hle
        rw [hloop] at hloop2
        simp only [Option.some.injEq, Prod.mk.injEq] at hloop2
        obtain ⟨hops, hlid, hldate⟩ := hloop2
        rw [h1] at hs ⊢
        subst hlid
        subst hldate
        exact writeCursor_success_cursor failAt tNow _ _ _ _ hdt hne hs

/-- Witness for C4 on a concrete warm run with a size-respecting
provider: the cursor lands on the newest message's id and timestamp, and
the reported count obeys the warm bound. -/
theorem C4_page_limits_and_cursor_witness :
    (syncEmails (fun s => s) (some "t") "u@x" exProvBounded (fun _ => false)
        exDb 5).2.cursor =
      some { last_date := some 2000, last_entry := some "b", updatedAt := some 5 } ∧
    (1 : Nat) ≤ 20 := by
  have hlen : ∀ q n, (exProvBounded.page q n).length ≤ n := by
    intro q n
    cases n with
    | zero => simp [exProvBounded]
    | succ k => simp [exProvBounded]
  have T := C4_page_limits_and_cursor (fun s => s) (some "t") "u@x" exProvBounded
    (fun _ => false) exDb 5 hlen
  constructor
  · exact T.2 { id := some "b" } [] "b" (by decide) rfl (by decide) rfl
      (by decide) (by simp) (by simp) (by decide)
  · exact T.1.2 rfl 1 (by decide)

/-! ## Claim C5: typed failures and the cursor (corrected)

The cursor write is not the action's last step: the `lastSyncedAt`
bookkeeping write to `user_secrets` follows it.  A transport failure in
that final write is caught and returned as a typed failure, but the
cursor is by then already advanced — refuting the claim that on every
failed run the cursor is left unchanged.  The amended statement: the
action never throws, every failure is a typed result with a message,
and a failed run can leave the cursor changed only when the failure hit
that final bookkeeping write. -/

/-- Counterexample to C5 as stated: with every call healthy except the
final `lastSyncedAt` write, the run returns a failed typed result while
the cursor has already advanced from (1000, "a") to (2000, "b"). -/
theorem C5_counterexample_cursor_moved :
    (syncEmails (fun s => s) (some "t") "u@x" exProv exFailSynced exDb 5).1.success
        = false ∧
    (syncEmails (fun s => s) (some "t") "u@x" exProv exFailSynced exDb 5).2.cursor
        = some { last_date := some 2000, last_entry := some "b", updatedAt := some 5 } ∧
    exDb.cursor = some { last_date := some 1000, last_entry := some "a",
                         updatedAt := none } := by
  refine ⟨by decide, by decide, rfl⟩

/-- Claim C5 (amended): syncEmailsAction never throws — it is a total
function into typed results — and every failed run carries a nonempty
message; the cursor update happens only after all staging writes commit,
and on every failed run the cursor is left unchanged unless the failure
struck the final `lastSyncedAt` bookkeeping write, which runs after the
cursor update. -/
theorem C5_typed_failure_cursor (decode : String → String) (atok : Option String)
    (userEmail : String) (prov : Provider) (failAt : CallSite → Bool)
    (db : DB) (tNow : Nat) :
    ((syncEmails decode atok userEmail prov failAt db tNow).1.success = false →
      (syncEmails decode atok userEmail prov failAt db tNow).1.message ≠ "") ∧
    ((syncEmails decode atok userEmail prov failAt db tNow).1.success = false →
      (syncEmails decode atok userEmail prov failAt db tNow).2.cursor ≠ db.cursor →
      failAt CallSite.syncedWrite = true) := by
  rcases syncEmails_cases decode atok userEmail prov failAt db tNow with
    ⟨m, hm, hne⟩ | hcore
  · rw [hm]
    exact ⟨fun _ => hne, fun _ hcur => absurd rfl hcur⟩
  · rw [hcore]
    rcases syncCore_cases decode userEmail prov failAt db tNow with
      h1 | ⟨msg, _, h1⟩ | ⟨ops, lid, ldate, hloop, h1⟩
    · rw [h1]
      exact ⟨fun _ => by simp [syncFailure], fun _ hcur => absurd rfl hcur⟩
    · rw [h1]
      constructor
      · intro hf
        exact finishSync_msg _ _ _ _ _ hf
      · intro hf hcur
        exact absurd (finishSync_db _ _ _ _ _).1 hcur
    · rw [h1]
      constructor
      · intro hf
        exact (writeCursor_fail _ _ _ _ _ _ hf).1
      · intro hf hcur
        rcases (writeCursor_fail _ _ _ _ _ _ hf).2 with hkeep | hsw
        · exact absurd hkeep hcur
        · exact hsw

/-- Witness for C5 (amended) on a run whose `messages.list` call throws:
the result is a typed failure with a nonempty message. -/
theorem C5_typed_failure_cursor_witness :
    (syncEmails (fun s => s) (some "t") "u@x" exProv exFailList exDb 5).1.message
      ≠ "" :=
  (C5_typed_failure_cursor (fun s => s) (some "t") "u@x" exProv exFailList
    exDb 5).1 (by decide)

/-! ## Claim C8: monotone cursor timestamp -/

/-- Claim C8: per account, the cursor's `last_date` never decreases
across a fetch run — including gap-tolerant runs that re-stage the whole
page and runs that fail at any call — given only the provider's query
contract: every page entry returned for `after:<seconds>` has a strictly
later floored-seconds internal date than the stored watermark. -/
theorem C8_cursor_monotone (decode : String → String) (atok : Option String)
    (userEmail : String) (prov : Provider) (failAt : CallSite → Bool) (db : DB)
    (tNow : Nat) (c : Cursor) (d : Nat)
    (hc : db.cursor = some c) (hd : c.last_date = some d)
    (hafter : ∀ m ∈ prov.page (queryFor db) 20, ∀ mid, m.id = some mid →
        d / 1000 < (prov.full mid).internalDate / 1000) :
    ∀ c1, (syncEmails decode atok userEmail prov failAt db tNow).2.cursor = some c1 →
      ∀ d1, c1.last_date = some d1 → d ≤ d1 := by
  intro c1 hc1 d1 hd1
  have hps : (if db.cursor.isSome then 20 else 2) = 20 := by
    rw [hc]
    rfl
  have hsame : (syncEmails decode atok userEmail prov failAt db tNow).2.cursor
      = db.cursor → d ≤ d1 := by
    intro he
    rw [he, hc] at hc1
    injection hc1 with h2
    rw [← h2, hd] at hd1
    injection hd1 with h3
    omega
  rcases syncEmails_cases decode atok userEmail prov failAt db tNow with
    ⟨m, hm, _⟩ | hcore
  · apply hsame
    rw [hm]
  · rcases syncCore_cases decode userEmail prov failAt db tNow with
      h1 | ⟨msg, _, h1⟩ | ⟨ops, lid, ldate, hloop, h1⟩
    · apply hsame
      rw [hcore, h1]
    · apply hsame
      rw [hcore, h1]
      exact (finishSync_db _ _ _ _ _).1
    · rw [hcore, h1] at hc1
      rcases writeCursor_cursor failAt tNow lid ldate
          (computeNewMessages (db.cursor.bind Cursor.last_entry)
            (prov.page (queryFor db) (if db.cursor.isSome then 20 else 2))).length
          { db with staging := commitBatch ops db.staging } with hkeep | ⟨hor, hme⟩
      · apply hsame
        rw [hcore, h1]
        exact hkeep
      · rw [hme] at hc1
        injection hc1 with h2
        by_cases hld : 0 < ldate
        · have hcl : c1.last_date = some ldate := by
            rw [← h2]
            simp [mergeCursor, hld]
          rw [hcl] at hd1
          injection hd1 with h3
          rcases fetchLoop_ldate_src decode prov userEmail tNow failAt _ _ _ _ _ _ _
              hloop with hz | ⟨mid, ⟨mm, hmm, hmid⟩, hldd⟩
          · omega
          · have hmem : mm ∈ prov.page (queryFor db) 20 := by
              have hsub := computeNewMessages_sub (db.cursor.bind Cursor.last_entry)
                (prov.page (queryFor db) (if db.cursor.isSome then 20 else 2)) mm hmm
              rw [hps] at hsub
              exact hsub
            have hlt := hafter mm hmem mid hmid
            have hdlt : d < (prov.full mid).internalDate := lt_of_seconds_lt _ _ hlt
            omega
        · have hcl : c1.last_date = c.last_date := by
            rw [← h2]
            simp [mergeCursor, hld, hc]
          rw [hcl, hd] at hd1
          injection hd1 with h3
          omega

/-- Witness for C8 on a concrete warm run: the cursor advances from
1000 ms to 2000 ms, respecting monotonicity. -/
theorem C8_cursor_monotone_witness :
    (syncEmails (fun s => s) (some "t") "u@x" exProv (fun _ => false) exDb
        5).2.cursor =
      some { last_date := some 2000, last_entry := some "b", updatedAt := some 5 } ∧
    (1000 : Nat) ≤ 2000 := by
  refine ⟨by decide, ?_⟩
  exact C8_cursor_monotone (fun s => s) (some "t") "u@x" exProv (fun _ => false)
    exDb 5 { last_date := some 1000, last_entry := some "a", updatedAt := none }
    1000 rfl rfl
    (by
      intro m hm mid hmid
      simp only [exProv]
      decide)
    { last_date := some 2000, last_entry := some "b", updatedAt := some 5 }
    (by decide) 2000 rfl

/-! ## Claim C9: auto-sync debounce -/

/-- Claim C9: invoking the automatic sync trigger twice within the
15-minute cooldown window results in exactly one underlying fetch call
(the second invocation is skipped); invoking it once, waiting past the
cooldown, then invoking it again results in two fetch calls; and the
recorded cooldown timestamp is the invocation time whenever the trigger
fires, written independently of (and hence before) the completion of
the fetch attempt. -/
theorem C9_auto_sync_debounce (t1 t2 : Nat)
    (h1 : AUTO_SYNC_COOLDOWN_MS < t1) (h12 : t1 ≤ t2) :
    ((t2 - t1 ≤ AUTO_SYNC_COOLDOWN_MS → (runAutoSync [t1, t2]).2 = 1) ∧
     (AUTO_SYNC_COOLDOWN_MS < t2 - t1 → (runAutoSync [t1, t2]).2 = 2)) ∧
    (∀ stored tNow, (autoSyncStep stored tNow).1 = true →
      (autoSyncStep stored tNow).2 = tNow) := by
  have hA : autoSyncStep 0 t1 = (true, t1) := by
    unfold autoSyncStep
    rw [if_pos]
    omega
  refine ⟨⟨?_, ?_⟩, ?_⟩
  · intro h
    have hB : autoSyncStep t1 t2 = (false, t1) := by
      unfold autoSyncStep
      rw [if_neg]
      omega
    simp [runAutoSync, List.foldl, hA, hB]
  · intro h
    have hB : autoSyncStep t1 t2 = (true, t2) := by
      unfold autoSyncStep
      rw [if_pos]
      omega
    simp [runAutoSync, List.foldl, hA, hB]
  · intro stored tNow h
    unfold autoSyncStep at h ⊢
    split at h
    · simp [*]
    · simp at h

/-- Witness for C9 at a concrete timeline: first invocation at
t = 10^9 ms fires, a second one 60 s later is within the cooldown,
leaving exactly one fetch call. -/
theorem C9_auto_sync_debounce_witness :
    (runAutoSync [1000000000, 1000060000]).2 = 1 :=
  (C9_auto_sync_debounce 1000000000 1000060000 (by decide) (by decide)).1.1
    (by decide)

/-! ## Claim C6: SMS webhook -/

/-- Claim C6: the SMS webhook POST handler returns a 400 client error
when sender or body is missing; for a body without
transaction-indicating keywords (e.g. "Your OTP is 1234") it returns a
success response and writes nothing; for a matching body (e.g.
"Rs.500 debited from your account") it creates exactly one staging item
with status pending, source sms, and the fixed shared pseudo-account
key "unknown_mobile". -/
theorem C6_sms_webhook (sender body : Option String) (ts : Option Nat)
    (freshId : String) (tNow : Nat) :
    ((sender = none ∨ body = none) →
      (smsPOST sender body ts freshId tNow).1.status = 400 ∧
      (smsPOST sender body ts freshId tNow).2 = []) ∧
    ((smsPOST (some "AX-HDFC") (some "Your OTP is 1234") ts freshId tNow).1.success = true ∧
     (smsPOST (some "AX-HDFC") (some "Your OTP is 1234") ts freshId tNow).1.status = 200 ∧
     (smsPOST (some "AX-HDFC") (some "Your OTP is 1234") ts freshId tNow).2 = []) ∧
    (∀ s : String, s ≠ "" →
      (smsPOST (some s) (some "Rs.500 debited from your account") ts freshId tNow).2.length = 1 ∧
      ∀ d ∈ (smsPOST (some s) (some "Rs.500 debited from your account") ts freshId tNow).2,
        d.status = "pending" ∧ d.type = "sms" ∧ d.userEmail = "unknown_mobile") := by
  refine ⟨?_, ?_, ?_⟩
  · rintro (rfl | rfl)
    · exact ⟨rfl, rfl⟩
    · constructor
      · unfold smsPOST
        simp [jsFalsy]
      · unfold smsPOST
        simp [jsFalsy]
  · have hkw : isTransaction "Your OTP is 1234" = false := by decide
    unfold smsPOST
    simp [jsFalsy, hkw]
  · intro s hs
    have hkw : isTransaction "Rs.500 debited from your account" = true := by decide
    unfold smsPOST
    simp [jsFalsy, hkw, hs]

/-- Witness for C6: a request missing the sender yields a 400 response
with no staged writes. -/
theorem C6_sms_webhook_witness :
    (smsPOST none (some "Rs.5 debited") none "sms_1_x" 7).1.status = 400 ∧
    (smsPOST none (some "Rs.5 debited") none "sms_1_x" 7).2 = [] :=
  (C6_sms_webhook none (some "Rs.5 debited") none "sms_1_x" 7).1 (Or.inl rfl)

/-! ## Claim C7: the extraction prompt and the category vocabulary

The source's `processStagingAction(userEmail)` accepts no category or
context argument, while both call sites in `GmailSyncModal` invoke it as
`processStagingAction(user.email, categoryNames, context)` — the extra
arguments are dropped and the prompt below is built from the email
content alone, with no vocabulary and no historical pairs. -/

set_option maxRecDepth 40000 in
/-- Claim C7 (code bug): the worker's prompt does instruct the model to
return the fixed JSON schema or the literal text null, but — contrary to
the claim — it includes neither the caller-supplied category vocabulary
(here ["Food"]) nor the historical name-to-category sample (here
"Lunch: Food"): the prompt built for the batch content does not contain
either string. -/
theorem C7_prompt_lacks_vocabulary :
    strContains (buildPrompt exContent) "refundRequired" = true ∧
    strContains (buildPrompt exContent) "return null (the word null)" = true ∧
    strContains (buildPrompt exContent) "Food" = false ∧
    strContains (buildPrompt exContent) "Lunch: Food" = false := by
  refine ⟨by decide, by decide, by decide, by decide⟩

/-! ## Claim C2: per-item extraction transitions, isolated failures -/

/-- Claim C2: for every pending staging item processed by the Extraction
Worker, if the model response text (after stripping code fences) is
exactly "null" the item's status becomes "error"; if the response parses
as JSON the item's status becomes "review" and its parsed payload is set
to that (stripped) text; if the response fails to parse — or the model
call itself throws — the item's status becomes "error"; and the batch
result is the independent per-item map, so no item's failure halts the
processing of the remaining items (the worker itself is a total function
and never throws). -/
theorem C2_extraction_isolated (jsonOk : String → Bool)
    (pairs : List (PendingDoc × GenResult)) :
    ((processLoop jsonOk pairs).1 =
        pairs.map (fun p => (processDoc jsonOk p.1 p.2).1) ∧
      (processLoop jsonOk pairs).1.length = pairs.length) ∧
    (∀ (d : PendingDoc) (c raw : String),
      d.emailContent = some c → 10 ≤ c.length →
      ((stripFences raw = "null" →
          (processDoc jsonOk d (.ok raw)).1.status = "error") ∧
       (stripFences raw ≠ "null" → jsonOk (stripFences raw) = true →
          (processDoc jsonOk d (.ok raw)).1.status = "review" ∧
          (processDoc jsonOk d (.ok raw)).1.parsedData = some (stripFences raw)) ∧
       (stripFences raw ≠ "null" → jsonOk (stripFences raw) = false →
          (processDoc jsonOk d (.ok raw)).1.status = "error") ∧
       (processDoc jsonOk d .err).1.status = "error")) := by
  have hmap : ∀ ps : List (PendingDoc × GenResult),
      (processLoop jsonOk ps).1 =
        ps.map (fun p => (processDoc jsonOk p.1 p.2).1) := by
    intro ps
    induction ps with
    | nil => rfl
    | cons p rest ih =>
      obtain ⟨d, g⟩ := p
      simp [processLoop, ih]
  refine ⟨⟨hmap pairs, by rw [hmap pairs]; exact List.length_map _ _⟩, ?_⟩
  intro d c raw hc hlen
  have hne : c ≠ "" := by
    intro h
    rw [h] at hlen
    simp at hlen
  have hskip : (c == "" || decide (c.length < 10)) = false := by
    simp [hne]
    omega
  refine ⟨?_, ?_, ?_, ?_⟩
  · intro hnull
    simp [processDoc, hc, hskip, hnull]
  · intro hnn hok
    constructor
    · simp [processDoc, hc, hskip, hnn, hok]
    · simp [processDoc, hc, hskip, hnn, hok]
  · intro hnn hko
    simp [processDoc, hc, hskip, hnn, hko]
  · simp [processDoc, hc, hskip]

/-- Witness for C2 at the spec's test vector: response "null" degrades
the item to error, the sample JSON payload moves it to review with the
raw text stored, and "not json" degrades it to error. -/
theorem C2_extraction_isolated_witness :
    (processDoc exJsonOk exPending (.ok "null")).1.status = "error" ∧
    (processDoc exJsonOk exPending (.ok jsonSample)).1.status = "review" ∧
    (processDoc exJsonOk exPending (.ok jsonSample)).1.parsedData = some jsonSample ∧
    (processDoc exJsonOk exPending (.ok "not json")).1.status = "error" := by
  have T := C2_extraction_isolated exJsonOk []
  have hstrip : stripFences jsonSample = jsonSample := by decide
  refine ⟨?_, ?_, ?_, ?_⟩
  · exact (T.2 exPending "Rs.500 spent at Lunch Cafe" "null" rfl (by decide)).1
      (by decide)
  · exact ((T.2 exPending "Rs.500 spent at Lunch Cafe" jsonSample rfl (by decide)).2.1
      (by decide) (by decide)).1
  · have h := ((T.2 exPending "Rs.500 spent at Lunch Cafe" jsonSample rfl (by decide)).2.1
      (by decide) (by decide)).2
    rw [hstrip] at h
    exact h
  · exact (T.2 exPending "Rs.500 spent at Lunch Cafe" "not json" rfl (by decide)).2.2.1
      (by decide) (by decide)

/-! ## Claim C10: empty body walk, placeholder content, emptiness threshold -/

/-- Claim C10: a message whose recursive body walk yields no text (for
example a payload with no parts, where the walk runs on the empty list)
is staged with the fixed placeholder raw content
"(No Content Extracted)"; that placeholder is not below the worker's
10-character emptiness threshold, so such an item is not skipped as
empty: its outcome follows the model call (here: a parsable response
moves it to review, so it was submitted to the model). -/
theorem C10_placeholder_not_skipped :
    (∀ decode : String → String, extractBody decode [] = "") ∧
    stageContent "" = "(No Content Extracted)" ∧
    ¬ ("(No Content Extracted)".length < 10) ∧
    (∀ (decode : String → String) (prov : Provider) (userEmail : String)
        (tNow : Nat) (failAt : CallSite → Bool) (mid : String) (t : Nat),
      mid ≠ "" → failAt CallSite.msgGet = false →
      prov.full mid = { payload := some { parts := none }, internalDate := t } →
      0 < t →
      fetchLoop decode prov userEmail tNow failAt [{ id := some mid }] "" 0 [] =
        some ([(mid,
          { emailId := mid, receivedAt := t, status := "pending",
            emailContent := "(No Content Extracted)", userEmail := userEmail,
            createdAt := tNow })], mid, t)) ∧
    (∀ (jsonOk : String → Bool) (d : PendingDoc) (raw : String),
      d.emailContent = some "(No Content Extracted)" →
      stripFences raw ≠ "null" → jsonOk (stripFences raw) = true →
      (processDoc jsonOk d (.ok raw)).1.status = "review") := by
  refine ⟨fun _ => rfl, rfl, by decide, ?_, ?_⟩
  · intro decode prov userEmail tNow failAt mid t hmid hget hfull ht
    simp only [fetchLoop, hmid, hget, hfull, if_neg, Bool.false_eq_true,
      if_false]
    simp [hmid, ht, mkStagingDoc, stageContent, extractBody]
  · intro jsonOk d raw hc hnn hok
    have hlen : ¬ (("(No Content Extracted)" : String).length < 10) := by decide
    simp [processDoc, hc, hnn, hok, hlen]

/-- Witness for C10 on a concrete run: the one-message page with a
part-less payload stages the placeholder doc, and a pending doc carrying
the placeholder is processed to review by a parsable response. -/
theorem C10_placeholder_not_skipped_witness :
    fetchLoop (fun s => s) exProv "u@x" 5 (fun _ => false)
        [{ id := some "b" }] "" 0 [] =
      some ([("b",
        { emailId := "b", receivedAt := 2000, status := "pending",
          emailContent := "(No Content Extracted)", userEmail := "u@x",
          createdAt := 5 })], "b", 2000) ∧
    (processDoc (fun _ => true)
      { id := "m2", status := "pending",
        emailContent := some "(No Content Extracted)", parsedData := none }
      (.ok jsonSample)).1.status = "review" := by
  constructor
  · exact C10_placeholder_not_skipped.2.2.2.1 (fun s => s) exProv "u@x" 5
      (fun _ => false) "b" 2000 (by decide) rfl rfl (by decide)
  · exact C10_placeholder_not_skipped.2.2.2.2 (fun _ => true)
      { id := "m2", status := "pending",
        emailContent := some "(No Content Extracted)", parsedData := none }
      jsonSample rfl (by decide) rfl

end ExpenseTracker
